import Mathlib

/-!
Shallow embedding of `src/maps-screenshot-bot.py` (class `MapsScreenshotBot`)
and proofs about the claims of its specification.

Python floats are modelled as exact rationals (ℚ); the Python `xinters`
local variable, which persists across loop iterations and raises a
`NameError` when read before its first assignment, is modelled as an
`Option ℚ` component of the loop state, with a read of an unassigned
variable modelled as the `none` outcome of the whole run.
-/

/-- Loop state of `point_in_polygon`: the `inside` flag and the `xinters`
variable (`none` while not yet assigned). -/
structure PipState where
  inside : Bool
  xinters : Option ℚ
deriving DecidableEq

/-- One iteration of the `point_in_polygon` loop body (lines 53-62) for the
edge `e = ((p1x, p1y), (p2x, p2y))`.  Returns `none` when the Python code
would read `xinters` before any assignment (a `NameError`). -/
def pipStep (x y : ℚ) (s : PipState) (e : (ℚ × ℚ) × (ℚ × ℚ)) : Option PipState :=
  if min e.1.2 e.2.2 < y ∧ y ≤ max e.1.2 e.2.2 ∧ x ≤ max e.1.1 e.2.1 then
    let xi : Option ℚ :=
      if e.1.2 ≠ e.2.2 then some ((y - e.1.2) * (e.2.1 - e.1.1) / (e.2.2 - e.1.2) + e.1.1)
      else s.xinters
    if e.1.1 = e.2.1 then some ⟨!s.inside, xi⟩
    else
      match xi with
      | none => none
      | some v => some ⟨if x ≤ v then !s.inside else s.inside, some v⟩
  else some s

/-- The sequence of edges the loop visits: `p1` starts at `polygon[0]` and
`p2` runs through `polygon[i % n]` for `i = 0, 1, ..., n`, so the first
visited edge is the degenerate pair `(polygon[0], polygon[0])` and the last
closes the polygon back to `polygon[0]`. -/
def pipEdges : List (ℚ × ℚ) → List ((ℚ × ℚ) × (ℚ × ℚ))
  | [] => []
  | v :: t => List.zip (v :: v :: t) ((v :: t) ++ [v])

/-- The whole `point_in_polygon` run; `none` models a crash (empty polygon,
or a read of the unassigned `xinters`). -/
def pipRun (pt : ℚ × ℚ) (poly : List (ℚ × ℚ)) : Option Bool :=
  match poly with
  | [] => none
  | _ :: _ =>
      (List.foldlM (pipStep pt.1 pt.2) ⟨false, none⟩ (pipEdges poly)).map PipState.inside

/-- The function `point_in_polygon` of the source (lines 47-64), as a total
function (the crash cases, proved unreachable for nonempty polygons, default
to `false`). -/
def point_in_polygon (pt : ℚ × ℚ) (poly : List (ℚ × ℚ)) : Bool :=
  (pipRun pt poly).getD false

/-- The method `is_within_boundary` (lines 37-66) just calls
`point_in_polygon` on the stored boundary. -/
def is_within_boundary (boundary : List (ℚ × ℚ)) (pt : ℚ × ℚ) : Bool :=
  point_in_polygon pt boundary

/-- The x-intercept of the edge `e` at height `y` as the source computes it
(line 59). -/
def xintercept (e : (ℚ × ℚ) × (ℚ × ℚ)) (y : ℚ) : ℚ :=
  (y - e.1.2) * (e.2.1 - e.1.1) / (e.2.2 - e.1.2) + e.1.1

/-- Whether one loop iteration on edge `e` toggles the `inside` flag; the
per-edge toggling decision of the loop body, which does not depend on the
loop state. -/
def toggles (x y : ℚ) (e : (ℚ × ℚ) × (ℚ × ℚ)) : Bool :=
  if min e.1.2 e.2.2 < y ∧ y ≤ max e.1.2 e.2.2 ∧ x ≤ max e.1.1 e.2.1 then
    if e.1.1 = e.2.1 then true else decide (x ≤ xintercept e y)
  else false

/-- Parity (xor-fold) of a list of booleans. -/
def bparity (l : List Bool) : Bool :=
  l.foldl Bool.xor false

/-- Modelled from the spec: the containment test as the words of claim C4
read it, with a candidate crossing required to have its `y` strictly between
the edge's minimum and maximum `y` (the source instead tests
`min < y ∧ y ≤ max`).  Used only for comparison with `point_in_polygon`. -/
def togglesStrict (x y : ℚ) (e : (ℚ × ℚ) × (ℚ × ℚ)) : Bool :=
  if min e.1.2 e.2.2 < y ∧ y < max e.1.2 e.2.2 ∧ x ≤ max e.1.1 e.2.1 then
    if e.1.1 = e.2.1 then true else decide (x ≤ xintercept e y)
  else false

/-- Modelled from the spec: containment with the strictly-between candidate
rule of claim C4 (comparison definition only). -/
def pipStrictSpec (pt : ℚ × ℚ) (poly : List (ℚ × ℚ)) : Bool :=
  bparity ((pipEdges poly).map (togglesStrict pt.1 pt.2))

/-- Membership of a point on the closed segment from `p` to `q`. -/
def onSegment (pt p q : ℚ × ℚ) : Bool :=
  decide ((pt.1 - p.1) * (q.2 - p.2) = (pt.2 - p.2) * (q.1 - p.1)) &&
    decide (min p.1 q.1 ≤ pt.1) && decide (pt.1 ≤ max p.1 q.1) &&
    decide (min p.2 q.2 ≤ pt.2) && decide (pt.2 ≤ max p.2 q.2)

/-- The proper cyclic edges of a polygon: each vertex paired with its
cyclic successor. -/
def cyclicEdges (poly : List (ℚ × ℚ)) : List ((ℚ × ℚ) × (ℚ × ℚ)) :=
  List.zip poly (poly.rotate 1)

/-- Whether the point lies on an edge or vertex of the polygon (the closing
edge from the last vertex back to the first one included). -/
def onPolyBoundary (pt : ℚ × ℚ) (poly : List (ℚ × ℚ)) : Bool :=
  (cyclicEdges poly).any fun e => onSegment pt e.1 e.2

/-- Clamping of the constructor argument `zoom_level` (line 30). -/
def zoomClamp (z : ℤ) : ℤ := min 21 (max 0 z)

/-- The state an initialized `MapsScreenshotBot` carries (the `driver`
collaborator is external and not part of the state). -/
structure BotState where
  city : String
  boundary_coords : List (ℚ × ℚ)
  zoom_level : ℤ
  screenshot_path : String

/-- The constructor `__init__` (lines 13-35): the stored zoom level is
clamped into `[0, 21]`, while the screenshot directory name interpolates the
original, unclamped `zoom_level` argument (line 32). -/
def initBot (city : String) (boundary_coords : List (ℚ × ℚ)) (zoom_level : ℤ) : BotState :=
  { city := city
    boundary_coords := boundary_coords
    zoom_level := min 21 (max 0 zoom_level)
    screenshot_path := "screenshots_" ++ city ++ "_zoom" ++ toString zoom_level }

/-- The method `calculate_grid_step` (lines 68-79): base step `0.001` scaled
by `2 ^ (18 - zoom_level)`, for latitude and longitude alike. -/
def calculate_grid_step (zoom_level : ℤ) : ℚ × ℚ :=
  let base_lat_step : ℚ := 1 / 1000
  let base_lon_step : ℚ := 1 / 1000
  let zoom_factor : ℚ := (2 : ℚ) ^ ((18 : ℤ) - zoom_level)
  (base_lat_step * zoom_factor, base_lon_step * zoom_factor)

/-- The URL built by `navigate_to_position` (line 83); it interpolates the
stored (clamped) zoom level. -/
def navigate_url (bot : BotState) (lat lon : ℚ) : String :=
  "https://www.google.com/maps/@" ++ toString lat ++ "," ++ toString lon ++ ","
    ++ toString bot.zoom_level ++ "z"

/-- The screenshot file name built in `scan_city` (line 129); it
interpolates the stored (clamped) zoom level, inside the directory whose
name carries the unclamped constructor argument. -/
def screenshot_filename (bot : BotState) (lat lon : ℚ) (timestamp : String) : String :=
  bot.screenshot_path ++ "/" ++ bot.city ++ "_" ++ toString lat ++ "_" ++ toString lon
    ++ "_z" ++ toString bot.zoom_level ++ "_" ++ timestamp ++ ".png"

/-- The value `actual_grid_size = grid_size * (2 ** (zoom_level - 18))`
(line 113).  For `zoom_level < 18` Python evaluates `2 ** negative` as a
float, and `np.linspace` rejects a float sample count, so the call raises;
that failing case is modelled as `none`. -/
def actualGridSize (grid_size : ℕ) (zoom_level : ℤ) : Option ℕ :=
  if 18 ≤ zoom_level then some (grid_size * 2 ^ (zoom_level - 18).toNat) else none

/-- The semantics of `np.linspace(a, b, num)` with its default inclusive
endpoint: `num` evenly spaced samples from `a` to `b`. -/
def linspace (a b : ℚ) (num : ℕ) : List ℚ :=
  if num = 0 then []
  else if num = 1 then [a]
  else (List.range num).map fun i : ℕ => a + (i : ℚ) * ((b - a) / ((num : ℚ) - 1))

/-- Minimum of a list of rationals (`min(...)` over a nonempty generator;
the empty case, where Python raises, defaults to `0` and is excluded by the
nonemptiness hypotheses of the theorems below). -/
def listMinD : List ℚ → ℚ
  | [] => 0
  | a :: t => t.foldl min a

/-- Maximum of a list of rationals, as `listMinD`. -/
def listMaxD : List ℚ → ℚ
  | [] => 0
  | a :: t => t.foldl max a

/-- The bound `lat_min` (line 104). -/
def latMinD (bd : List (ℚ × ℚ)) : ℚ := listMinD (bd.map Prod.fst)

/-- The bound `lat_max` (line 105). -/
def latMaxD (bd : List (ℚ × ℚ)) : ℚ := listMaxD (bd.map Prod.fst)

/-- The bound `lon_min` (line 106). -/
def lonMinD (bd : List (ℚ × ℚ)) : ℚ := listMinD (bd.map Prod.snd)

/-- The bound `lon_max` (line 107). -/
def lonMaxD (bd : List (ℚ × ℚ)) : ℚ := listMaxD (bd.map Prod.snd)

/-- The array `lat_steps` (line 115), empty when the grid size computation
fails. -/
def latStepsOf (bd : List (ℚ × ℚ)) (grid_size : ℕ) (zoom : ℤ) : List ℚ :=
  match actualGridSize grid_size zoom with
  | none => []
  | some n => linspace (latMinD bd) (latMaxD bd) n

/-- The array `lon_steps` (line 116). -/
def lonStepsOf (bd : List (ℚ × ℚ)) (grid_size : ℕ) (zoom : ℤ) : List ℚ :=
  match actualGridSize grid_size zoom with
  | none => []
  | some n => linspace (lonMinD bd) (lonMaxD bd) n

/-- The value `total_points = len(lat_steps) * len(lon_steps)` (line 118). -/
def totalPointsOf (bd : List (ℚ × ℚ)) (grid_size : ℕ) (zoom : ℤ) : ℕ :=
  (latStepsOf bd grid_size zoom).length * (lonStepsOf bd grid_size zoom).length

/-- The candidate grid as a function of the bounding box and the sample
count alone: the cross product of the two `linspace` arrays, in the order
the nested loops of `scan_city` visit it.  The step sizes of
`calculate_grid_step` do not occur here. -/
def gridCandidates (latmin latmax lonmin lonmax : ℚ) (size : ℕ) : List (ℚ × ℚ) :=
  (linspace latmin latmax size).flatMap fun la => (linspace lonmin lonmax size).map fun lo => (la, lo)

/-- The flattened candidate sequence the nested loops of `scan_city` visit. -/
def candidatesOf (bd : List (ℚ × ℚ)) (grid_size : ℕ) (zoom : ℤ) : List (ℚ × ℚ) :=
  (latStepsOf bd grid_size zoom).flatMap fun la =>
    (lonStepsOf bd grid_size zoom).map fun lo => (la, lo)

/-- Failures a scan run can end with: the two internal crash cases (empty
boundary makes `min()` raise on line 104; a fractional grid size makes
`np.linspace` raise on line 115) and opaque failures of the external
collaborators. -/
inductive ScanError where
  | emptyBoundary
  | fractionalGridSize
  | ext (code : ℕ)
deriving DecidableEq

/-- The behaviour the external collaborators exhibit at one grid point:
whether `driver.get` raises, whether the load wait observes the
load-complete signal within its timeout (per the external interface the
wait either succeeds or times out; the bare `except` of line 92 catches
whatever it raises), whether `pyautogui.screenshot()` raises, and whether
`screenshot.save` raises. -/
structure PointEnv where
  navErr : Option ScanError
  loaded : Bool
  capErr : Option ScanError
  saveErr : Option ScanError

/-- A point at which every collaborator call succeeds. -/
def okEnv : PointEnv := ⟨none, true, none, none⟩

/-- The first uncaught failure the per-point processing hits, if any (the
load-wait timeout is caught and is hence not a failure here). -/
def pointFail (pe : PointEnv) : Option ScanError :=
  match pe.navErr with
  | some e => some e
  | none =>
    match pe.capErr with
    | some e => some e
    | none => pe.saveErr

/-- Observable events of a scan run: a navigation request (with the zoom
interpolated into the URL), the load-timeout warning print, a saved
screenshot, a progress print `processed/total`, and `driver.quit`. -/
inductive Ev where
  | navigate (lat lon : ℚ) (zoom : ℤ)
  | warnTimeout (lat lon : ℚ)
  | saved (lat lon : ℚ) (zoom : ℤ)
  | progress (processed total : ℕ)
  | quit
deriving DecidableEq

/-- Processing of one in-boundary point (lines 124-139): navigate (get,
sleep, bounded wait with the timeout warning), screenshot, save, then the
progress print with the incremented counter.  The second component is the
uncaught exception, if one was raised. -/
def processPoint (zoom : ℤ) (pe : PointEnv) (lat lon : ℚ) (processed total : ℕ) :
    List Ev × Option ScanError :=
  match pe.navErr with
  | some e => ([Ev.navigate lat lon zoom], some e)
  | none =>
    let navEvs := Ev.navigate lat lon zoom ::
      (if pe.loaded then [] else [Ev.warnTimeout lat lon])
    match pe.capErr with
    | some e => (navEvs, some e)
    | none =>
      match pe.saveErr with
      | some e => (navEvs, some e)
      | none => (navEvs ++ [Ev.saved lat lon zoom, Ev.progress (processed + 1) total], none)

/-- The nested loops of `scan_city` (lines 121-139) over the flattened
candidate list: skip out-of-boundary points, process in-boundary ones, stop
at the first uncaught exception.  Arguments: remaining candidates, index of
the next candidate (selecting its environment), and the current
`processed_points`.  Returns the emitted events, the final counter and the
uncaught exception, if any. -/
def scanLoop (bd : List (ℚ × ℚ)) (zoom : ℤ) (env : ℕ → PointEnv) (total : ℕ) :
    List (ℚ × ℚ) → ℕ → ℕ → List Ev × ℕ × Option ScanError
  | [], _, processed => ([], processed, none)
  | c :: rest, i, processed =>
    if point_in_polygon c bd then
      match processPoint zoom (env i) c.1 c.2 processed total with
      | (evs, some e) => (evs, processed, some e)
      | (evs, none) =>
        let r := scanLoop bd zoom env total rest (i + 1) (processed + 1)
        (evs ++ r.1, r.2.1, r.2.2)
    else scanLoop bd zoom env total rest (i + 1) processed

/-- Result of a scan run: the event trace, the final `processed_points`,
and the uncaught exception (`none` for normal completion). -/
structure ScanResult where
  trace : List Ev
  processed : ℕ
  err : Option ScanError
deriving DecidableEq

/-- The method `scan_city` (lines 95-142): the whole body runs inside
`try: ... finally: self.driver.quit()`, so the `quit` event is appended on
every path, the two internal crash paths included. -/
def scan_city (bot : BotState) (grid_size : ℕ) (env : ℕ → PointEnv) : ScanResult :=
  let body : List Ev × ℕ × Option ScanError :=
    match bot.boundary_coords with
    | [] => ([], 0, some ScanError.emptyBoundary)
    | _ :: _ =>
      match actualGridSize grid_size bot.zoom_level with
      | none => ([], 0, some ScanError.fractionalGridSize)
      | some _ =>
        let _step := calculate_grid_step bot.zoom_level
        let latS := latStepsOf bot.boundary_coords grid_size bot.zoom_level
        let lonS := lonStepsOf bot.boundary_coords grid_size bot.zoom_level
        scanLoop bot.boundary_coords bot.zoom_level env (latS.length * lonS.length)
          (latS.flatMap fun la => lonS.map fun lo => (la, lo)) 0 0
  ⟨body.1 ++ [Ev.quit], body.2.1, body.2.2⟩

/-- Projection of a progress event. -/
def progressOf : Ev → Option (ℕ × ℕ)
  | Ev.progress p t => some (p, t)
  | _ => none

/-- The progress reports of a trace, in order. -/
def progressReports (l : List Ev) : List (ℕ × ℕ) := l.filterMap progressOf

/-- The last progress report of a trace. -/
def lastProgress (l : List Ev) : Option (ℕ × ℕ) := (progressReports l).getLast?

/-- Whether an event is the browser release. -/
def isQuit : Ev → Bool
  | Ev.quit => true
  | _ => false

/-- Whether an event that mentions a zoom level mentions the given one. -/
def evZoomOk (zoom : ℤ) : Ev → Bool
  | Ev.navigate _ _ z => decide (z = zoom)
  | Ev.saved _ _ z => decide (z = zoom)
  | _ => true

/-- The event block of one successfully processed in-boundary point:
navigation, the timeout warning when the load signal was not observed, the
saved screenshot, and the progress print. -/
def okBlock (zoom : ℤ) (pe : PointEnv) (c : ℚ × ℚ) (processed total : ℕ) : List Ev :=
  Ev.navigate c.1 c.2 zoom ::
    ((if pe.loaded then [] else [Ev.warnTimeout c.1 c.2]) ++
      [Ev.saved c.1 c.2 zoom, Ev.progress (processed + 1) total])

/-- The expected trace of an uninterrupted loop: one `okBlock` per
in-boundary candidate, nothing for skipped candidates. -/
def okTrace (bd : List (ℚ × ℚ)) (zoom : ℤ) (env : ℕ → PointEnv) (total : ℕ) :
    List (ℚ × ℚ) → ℕ → ℕ → List Ev
  | [], _, _ => []
  | c :: rest, i, processed =>
    if point_in_polygon c bd then
      okBlock zoom (env i) c processed total ++
        okTrace bd zoom env total rest (i + 1) (processed + 1)
    else okTrace bd zoom env total rest (i + 1) processed

/-- Number of in-boundary candidates in a list. -/
def inBoundCount (bd : List (ℚ × ℚ)) (cands : List (ℚ × ℚ)) : ℕ :=
  cands.countP fun c => point_in_polygon c bd

/-- Whether an event is a progress print. -/
def isProgress : Ev → Bool
  | Ev.progress _ _ => true
  | _ => false

/-- Whether an event is a saved screenshot. -/
def isSaved : Ev → Bool
  | Ev.saved _ _ _ => true
  | _ => false

/-- The adjacency discipline of progress prints: a progress print may only
directly follow a saved screenshot. -/
def savedBeforeProgress (a b : Ev) : Prop :=
  isProgress b = true → isSaved a = true

/-- An edge whose two endpoint heights satisfy the candidate-crossing test
at height `y` cannot be horizontal. -/
theorem cand_ne {a b y : ℚ} (h1 : min a b < y) (h2 : y ≤ max a b) : a ≠ b := by
  intro h
  rw [h, min_self] at h1
  rw [h, max_self] at h2
  exact absurd (h1.trans_le h2) (lt_irrefl _)

/-- One loop iteration always succeeds, and it flips the `inside` flag
exactly when `toggles` says so; the flip decision is independent of the
loop state. -/
theorem pipStep_eq (x y : ℚ) (s : PipState) (e : (ℚ × ℚ) × (ℚ × ℚ)) :
    ∃ xi, pipStep x y s e = some ⟨Bool.xor s.inside (toggles x y e), xi⟩ := by
  unfold pipStep toggles
  by_cases hc : min e.1.2 e.2.2 < y ∧ y ≤ max e.1.2 e.2.2 ∧ x ≤ max e.1.1 e.2.1
  · have hne : e.1.2 ≠ e.2.2 := cand_ne hc.1 hc.2.1
    rw [if_pos hc, if_pos hc]
    simp only [if_pos hne]
    refine ⟨some ((y - e.1.2) * (e.2.1 - e.1.1) / (e.2.2 - e.1.2) + e.1.1), ?_⟩
    by_cases hv : e.1.1 = e.2.1
    · simp [hv]
    · simp only [xintercept] at *
      by_cases hx : x ≤ (y - e.1.2) * (e.2.1 - e.1.1) / (e.2.2 - e.1.2) + e.1.1
      · simp [hv, hx]
      · simp [hv, hx]
  · rw [if_neg hc, if_neg hc]
    exact ⟨s.xinters, by simp⟩

/-- The whole fold always succeeds and computes the xor of the per-edge
toggle decisions. -/
theorem pipFold_eq (x y : ℚ) (l : List ((ℚ × ℚ) × (ℚ × ℚ))) : ∀ s : PipState,
    ∃ xi, List.foldlM (pipStep x y) s l =
      some ⟨List.foldl Bool.xor s.inside (l.map (toggles x y)), xi⟩ := by
  induction l with
  | nil => exact fun s => ⟨s.xinters, rfl⟩
  | cons e t ih =>
    intro s
    obtain ⟨xi1, h1⟩ := pipStep_eq x y s e
    obtain ⟨xi2, h2⟩ := ih ⟨Bool.xor s.inside (toggles x y e), xi1⟩
    refine ⟨xi2, ?_⟩
    rw [List.foldlM_cons, h1]
    simpa using h2

/-- For a nonempty polygon the run never crashes and returns the parity of
the toggle decisions over the visited edges. -/
theorem pipRun_eq (pt : ℚ × ℚ) {poly : List (ℚ × ℚ)} (h : poly ≠ []) :
    pipRun pt poly = some (bparity ((pipEdges poly).map (toggles pt.1 pt.2))) := by
  match poly, h with
  | v :: t, _ =>
    obtain ⟨xi, hfold⟩ := pipFold_eq pt.1 pt.2 (pipEdges (v :: t)) ⟨false, none⟩
    simp [pipRun, hfold, bparity]

/-- The degenerate self-edge the loop visits first never toggles. -/
theorem toggles_self (x y : ℚ) (v : ℚ × ℚ) : toggles x y (v, v) = false := by
  unfold toggles
  rw [if_neg]
  rintro ⟨h1, h2, -⟩
  exact absurd ((min_self v.2 ▸ h1).trans_le (max_self v.2 ▸ h2)) (lt_irrefl _)

/-- A fold of xor starting from `b` is `b` xor the parity. -/
theorem foldl_xor (l : List Bool) : ∀ b : Bool, l.foldl Bool.xor b = Bool.xor b (bparity l) := by
  induction l with
  | nil => intro b; simp [bparity]
  | cons a t ih =>
    intro b
    simp only [bparity, List.foldl_cons] at ih ⊢
    rw [ih (Bool.xor b a), ih (Bool.xor false a)]
    cases a <;> cases b <;> simp [bparity]

/-- Parity of a cons. -/
theorem bparity_cons (a : Bool) (l : List Bool) :
    bparity (a :: l) = Bool.xor a (bparity l) := by
  simp only [bparity, List.foldl_cons]
  rw [foldl_xor]
  cases a <;> simp [bparity]

/-- Parity of appending a single element. -/
theorem bparity_concat (l : List Bool) (a : Bool) :
    bparity (l ++ [a]) = Bool.xor a (bparity l) := by
  simp only [bparity, List.foldl_append, List.foldl_cons, List.foldl_nil]
  rw [foldl_xor]
  cases a <;> simp

/-- The visited edge list is the degenerate self-edge followed by the
proper cyclic edges. -/
theorem pipEdges_eq (v : ℚ × ℚ) (t : List (ℚ × ℚ)) :
    pipEdges (v :: t) = (v, v) :: cyclicEdges (v :: t) := by
  have hrot : (v :: t).rotate 1 = t ++ [v] := by
    have := List.rotate_cons_succ t v 0
    simpa [List.rotate_zero] using this
  simp [pipEdges, cyclicEdges, hrot, List.zip]

/-- The containment test equals the parity of the toggle decisions over the
proper cyclic edges. -/
theorem pip_parity (pt : ℚ × ℚ) {poly : List (ℚ × ℚ)} (h : poly ≠ []) :
    point_in_polygon pt poly = bparity ((cyclicEdges poly).map (toggles pt.1 pt.2)) := by
  match poly, h with
  | v :: t, _ =>
    rw [point_in_polygon, pipRun_eq pt (List.cons_ne_nil v t), Option.getD_some,
      pipEdges_eq, List.map_cons, bparity_cons, toggles_self]
    cases bparity ((cyclicEdges (v :: t)).map (toggles pt.1 pt.2)) <;> simp

/-- Rotating the vertex list by one step permutes the proper cyclic edge
multiset, so any parity over it is unchanged. -/
theorem cyclicEdges_rotate_parity (p : (ℚ × ℚ) × (ℚ × ℚ) → Bool) (l : List (ℚ × ℚ)) :
    bparity ((cyclicEdges (l.rotate 1)).map p) = bparity ((cyclicEdges l).map p) := by
  match l with
  | [] => rfl
  | [a] => rw [List.rotate_singleton]
  | a :: b :: t =>
    have hrot1 : (a :: b :: t).rotate 1 = b :: t ++ [a] := by
      have := List.rotate_cons_succ (b :: t) a 0
      simpa [List.rotate_zero] using this
    have hrot2 : (b :: t ++ [a]).rotate 1 = (t ++ [a]) ++ [b] := by
      have := List.rotate_cons_succ (t ++ [a]) b 0
      simpa [List.rotate_zero] using this
    have hsplit : cyclicEdges (b :: t ++ [a]) =
        List.zip (b :: t) (t ++ [a]) ++ [(a, b)] := by
      rw [cyclicEdges, hrot2]
      have hlen : (b :: t).length = (t ++ [a]).length := by simp
      have : (b :: t ++ [a]) = (b :: t) ++ [a] := by simp
      rw [this, List.zip_append hlen]
      rfl
    have horig : cyclicEdges (a :: b :: t) = (a, b) :: List.zip (b :: t) (t ++ [a]) := by
      rw [cyclicEdges, hrot1]
      rfl
    rw [hrot1, hsplit, horig]
    simp only [List.map_append, List.map_cons, List.map_nil]
    rw [bparity_concat, bparity_cons]

/-- Rotating the vertex list by one step leaves the containment test
unchanged. -/
theorem pip_rotate_one (pt : ℚ × ℚ) (l : List (ℚ × ℚ)) (h : l ≠ []) :
    point_in_polygon pt (l.rotate 1) = point_in_polygon pt l := by
  have hne : l.rotate 1 ≠ [] := by
    intro h2
    apply h
    have := congrArg List.length h2
    rw [List.length_rotate] at this
    exact List.length_eq_zero.mp this
  rw [pip_parity pt hne, pip_parity pt h, cyclicEdges_rotate_parity]

/-- Rotating the vertex list by any number of steps leaves the containment
test unchanged. -/
theorem pip_rotate (pt : ℚ × ℚ) (n : ℕ) {poly : List (ℚ × ℚ)} (h : poly ≠ []) :
    point_in_polygon pt (poly.rotate n) = point_in_polygon pt poly := by
  induction n with
  | zero => rw [List.rotate_zero]
  | succ k ih =>
    have hne : poly.rotate k ≠ [] := by
      intro h2
      apply h
      have := congrArg List.length h2
      rw [List.length_rotate] at this
      exact List.length_eq_zero.mp this
    have : poly.rotate (k + 1) = (poly.rotate k).rotate 1 := by
      rw [List.rotate_rotate]
    rw [this, pip_rotate_one pt (poly.rotate k) hne, ih]

/-- For an edge satisfying the candidate-crossing test, the x-intercept at
the crossing height lies at or left of the larger endpoint abscissa. -/
theorem xintercept_le_max {e : (ℚ × ℚ) × (ℚ × ℚ)} {y : ℚ}
    (h1 : min e.1.2 e.2.2 < y) (h2 : y ≤ max e.1.2 e.2.2) :
    xintercept e y ≤ max e.1.1 e.2.1 := by
  obtain ⟨⟨p1x, p1y⟩, p2x, p2y⟩ := e
  simp only [xintercept] at *
  have hne : p1y ≠ p2y := cand_ne h1 h2
  have key : (y - p1y) * (p2x - p1x) / (p2y - p1y) ≤ max p1x p2x - p1x := by
    rcases lt_or_gt_of_ne hne with hlt | hgt
    · have hdpos : (0 : ℚ) < p2y - p1y := by linarith
      have hylo : p1y < y := by rw [min_eq_left hlt.le] at h1; exact h1
      have hyhi : y ≤ p2y := by rw [max_eq_right hlt.le] at h2; exact h2
      rw [div_le_iff hdpos]
      rcases le_total p1x p2x with hx | hx
      · rw [max_eq_right hx]
        nlinarith
      · rw [max_eq_left hx]
        nlinarith
    · have hdneg : p2y - p1y < 0 := by linarith
      have hylo : p2y < y := by rw [min_eq_right hgt.le] at h1; exact h1
      have hyhi : y ≤ p1y := by rw [max_eq_left hgt.le] at h2; exact h2
      rw [div_le_iff_of_neg hdneg]
      rcases le_total p1x p2x with hx | hx
      · rw [max_eq_right hx]
        nlinarith
      · rw [max_eq_left hx]
        nlinarith
  linarith

/-- The per-edge toggle fires exactly when the candidate-crossing test
holds (`min < y` and `y ≤ max`) and the point is at or left of the
x-intercept; the source's extra `x <= max(p1x, p2x)` guard and its vertical
shortcut `p1x == p2x` change nothing. -/
theorem toggles_iff (x y : ℚ) (e : (ℚ × ℚ) × (ℚ × ℚ)) :
    toggles x y e = true ↔
      (min e.1.2 e.2.2 < y ∧ y ≤ max e.1.2 e.2.2 ∧ x ≤ xintercept e y) := by
  unfold toggles
  by_cases hc : min e.1.2 e.2.2 < y ∧ y ≤ max e.1.2 e.2.2 ∧ x ≤ max e.1.1 e.2.1
  · rw [if_pos hc]
    by_cases hv : e.1.1 = e.2.1
    · rw [if_pos hv]
      have hxi : xintercept e y = e.1.1 := by
        unfold xintercept
        rw [← hv, sub_self, mul_zero, zero_div, zero_add]
      have hmax : max e.1.1 e.2.1 = e.1.1 := by rw [← hv, max_self]
      constructor
      · exact fun _ => ⟨hc.1, hc.2.1, hxi ▸ hmax ▸ hc.2.2⟩
      · exact fun _ => rfl
    · rw [if_neg hv]
      constructor
      · exact fun h => ⟨hc.1, hc.2.1, of_decide_eq_true h⟩
      · exact fun h => decide_eq_true h.2.2
  · rw [if_neg hc]
    constructor
    · exact fun h => absurd h (by simp)
    · rintro ⟨h1, h2, hx⟩
      exact absurd ⟨h1, h2, hx.trans (xintercept_le_max h1 h2)⟩ hc

/-- Claim C4, as stated, is false: the source admits an edge as a candidate
crossing when the point's `y` equals the edge's maximum `y` (`y <= max`,
line 56), not only when `y` is strictly between the endpoint heights.  On
the edge `((0,0),(2,2))` at `y = 2` the source's candidate test fires while
`2` is not strictly between `0` and `2`; on the polygon
`[(0,0),(2,2),(4,4),(0,4)]` at the point `(-1,2)` (not on any edge) the two
rules even classify differently: the source answers outside, the
strictly-between rule answers inside. -/
theorem claim_C4_counterexample :
    toggles (-1) 2 ((0, 0), (2, 2)) = true ∧
    ¬ (min (0 : ℚ) 2 < 2 ∧ (2 : ℚ) < max 0 2) ∧
    point_in_polygon (-1, 2) [(0, 0), (2, 2), (4, 4), (0, 4)] = false ∧
    pipStrictSpec (-1, 2) [(0, 0), (2, 2), (4, 4), (0, 4)] = true := by
  refine ⟨?_, ?_, ?_, ?_⟩ <;>
    norm_num [toggles, togglesStrict, xintercept, point_in_polygon, pipRun, pipEdges,
      pipStep, pipStrictSpec, bparity]

/-- Claim C4 (amended): the per-edge candidate test of the containment test
fires iff the point's `y` is strictly above the edge's minimum `y` and at
or below its maximum `y`; on each qualifying crossing the inside flag is
toggled exactly when the point's `x` is at or left of the edge's
x-intercept at that `y`; the containment answer is the parity of these
per-edge toggles, and on the square boundary `(1,1)` is inside while
`(5,5)` is outside. -/
theorem claim_C4_amended :
    (∀ (x y : ℚ) (e : (ℚ × ℚ) × (ℚ × ℚ)),
        toggles x y e = true ↔
          (min e.1.2 e.2.2 < y ∧ y ≤ max e.1.2 e.2.2 ∧ x ≤ xintercept e y)) ∧
    (∀ (pt : ℚ × ℚ) (poly : List (ℚ × ℚ)), poly ≠ [] →
        point_in_polygon pt poly = bparity ((pipEdges poly).map (toggles pt.1 pt.2))) ∧
    point_in_polygon (1, 1) [(0,0),(0,2),(2,2),(2,0),(0,0)] = true ∧
    point_in_polygon (5, 5) [(0,0),(0,2),(2,2),(2,0),(0,0)] = false := by
  refine ⟨toggles_iff, ?_, by decide, by decide⟩
  intro pt poly h
  rw [point_in_polygon, pipRun_eq pt h, Option.getD_some]

/-- Witness for the amended claim C4 at a concrete polygon and point. -/
theorem claim_C4_amended_witness :
    point_in_polygon (1, 1) [(0, 0), (0, 2)] =
      bparity ((pipEdges [(0, 0), (0, 2)]).map (toggles 1 1)) ∧
    (toggles 1 1 ((0, 0), (0, 2)) = true ↔
      (min (0 : ℚ) 2 < 1 ∧ (1 : ℚ) ≤ max 0 2 ∧ (1 : ℚ) ≤ xintercept ((0, 0), (0, 2)) 1)) :=
  ⟨claim_C4_amended.2.1 (1, 1) [(0, 0), (0, 2)] (by decide),
   claim_C4_amended.1 1 1 ((0, 0), (0, 2))⟩

/-- Claim C7: for a polygon of at least 3 vertices and a point on no edge
or vertex, the containment test classifies the point identically for every
cyclic rotation of the vertex list. -/
theorem claim_C7_rotation_invariance (poly : List (ℚ × ℚ)) (pt : ℚ × ℚ) (n : ℕ)
    (hlen : 3 ≤ poly.length) (hb : onPolyBoundary pt poly = false) :
    point_in_polygon pt (poly.rotate n) = point_in_polygon pt poly :=
  pip_rotate pt n (by rintro rfl; simp at hlen)

/-- Witness for claim C7: the unit point inside the square, rotation by
one vertex. -/
theorem claim_C7_witness :
    point_in_polygon (1, 1) ([(0,0),(0,2),(2,2),(2,0)].rotate 1) =
      point_in_polygon (1, 1) [(0,0),(0,2),(2,2),(2,0)] :=
  claim_C7_rotation_invariance [(0,0),(0,2),(2,2),(2,0)] (1, 1) 1 (by decide)
    (by norm_num [onPolyBoundary, cyclicEdges, onSegment, List.rotate_cons_succ,
      List.rotate_zero])

/-- Claim C9: a horizontal edge never passes the candidate-crossing test,
so the x-intercept is computed only with a nonzero denominator; one loop
step never crashes (in particular it never reads the `xinters` variable
before an assignment), its outcome does not depend on a stale stored
`xinters`, and a whole run on a nonempty polygon never crashes. -/
theorem claim_C9_no_crash (pt : ℚ × ℚ) (poly : List (ℚ × ℚ)) (s : PipState)
    (e : (ℚ × ℚ) × (ℚ × ℚ)) :
    (e.1.2 = e.2.2 → ¬ (min e.1.2 e.2.2 < pt.2 ∧ pt.2 ≤ max e.1.2 e.2.2)) ∧
    ((min e.1.2 e.2.2 < pt.2 ∧ pt.2 ≤ max e.1.2 e.2.2) → e.2.2 - e.1.2 ≠ 0) ∧
    (pipStep pt.1 pt.2 s e).isSome = true ∧
    ((pipStep pt.1 pt.2 s e).map PipState.inside =
      (pipStep pt.1 pt.2 ⟨s.inside, none⟩ e).map PipState.inside) ∧
    (poly ≠ [] → ∃ b, pipRun pt poly = some b) := by
  refine ⟨?_, ?_, ?_, ?_, ?_⟩
  · rintro heq ⟨h1, h2⟩
    exact cand_ne h1 h2 heq
  · rintro ⟨h1, h2⟩
    exact sub_ne_zero_of_ne (Ne.symm (cand_ne h1 h2))
  · obtain ⟨xi, h⟩ := pipStep_eq pt.1 pt.2 s e
    rw [h]
    rfl
  · obtain ⟨xi1, h1⟩ := pipStep_eq pt.1 pt.2 s e
    obtain ⟨xi2, h2⟩ := pipStep_eq pt.1 pt.2 ⟨s.inside, none⟩ e
    rw [h1, h2]
    rfl
  · intro h
    exact ⟨_, pipRun_eq pt h⟩

/-- Witness for claim C9 at a concrete step and run. -/
theorem claim_C9_witness :
    (pipStep 1 1 ⟨false, none⟩ ((0, 0), (0, 2))).isSome = true ∧
    (pipRun (1, 1) [(0,0),(0,2),(2,2),(2,0),(0,0)]).isSome = true := by
  have h := claim_C9_no_crash (1, 1) [(0,0),(0,2),(2,2),(2,0),(0,0)] ⟨false, none⟩
    ((0, 0), (0, 2))
  obtain ⟨b, hb⟩ := h.2.2.2.2 (by decide)
  exact ⟨h.2.2.1, by rw [hb]; rfl⟩

/-- Unfolding of `linspace` in its general case. -/
theorem linspace_eq_map (a b : ℚ) {n : ℕ} (h2 : 2 ≤ n) :
    linspace a b n =
      (List.range n).map fun j : ℕ => a + (j : ℚ) * ((b - a) / ((n : ℚ) - 1)) := by
  unfold linspace
  rw [if_neg (by omega), if_neg (by omega)]

/-- The sample count of `linspace`. -/
theorem linspace_length (a b : ℚ) (n : ℕ) : (linspace a b n).length = n := by
  rcases n with _ | _ | m
  · rfl
  · rfl
  · rw [linspace_eq_map a b (by omega : 2 ≤ m + 2), List.length_map, List.length_range]

/-- The i-th sample of `linspace` for at least two samples. -/
theorem linspace_get (a b : ℚ) {n : ℕ} (h2 : 2 ≤ n) (i : ℕ)
    (hi : i < (linspace a b n).length) :
    (linspace a b n).get ⟨i, hi⟩ = a + (i : ℚ) * ((b - a) / ((n : ℚ) - 1)) := by
  rw [List.get_eq_getElem, List.getElem_of_eq (linspace_eq_map a b h2) hi,
    List.getElem_map, List.getElem_range]

/-- Every sample of `linspace a b n` lies between `a` and `b` when
`a ≤ b`. -/
theorem linspace_mem (a b : ℚ) {n : ℕ} (hab : a ≤ b) {x : ℚ} (hx : x ∈ linspace a b n) :
    a ≤ x ∧ x ≤ b := by
  rcases n with _ | _ | m
  · exact absurd hx (by intro h; exact List.not_mem_nil x h)
  · have hx1 : x = a := by
      have h1 : x ∈ [a] := hx
      simpa using h1
    exact ⟨hx1.ge, hx1.le.trans hab⟩
  · have h2 : 2 ≤ m + 2 := by omega
    rw [linspace_eq_map a b h2, List.mem_map] at hx
    obtain ⟨i, hi, rfl⟩ := hx
    rw [List.mem_range] at hi
    have hn' : (2 : ℚ) ≤ ((m + 2 : ℕ) : ℚ) := by exact_mod_cast h2
    have hd : 0 ≤ (b - a) / (((m + 2 : ℕ) : ℚ) - 1) := div_nonneg (by linarith) (by linarith)
    have hi0 : (0 : ℚ) ≤ (i : ℚ) := Nat.cast_nonneg i
    constructor
    · nlinarith [mul_nonneg hi0 hd]
    · have hin : (i : ℚ) ≤ ((m + 2 : ℕ) : ℚ) - 1 := by
        have hle : i + 1 ≤ m + 2 := hi
        have hcast : ((i : ℚ)) + 1 ≤ ((m + 2 : ℕ) : ℚ) := by exact_mod_cast hle
        linarith
      have hmul : (i : ℚ) * ((b - a) / (((m + 2 : ℕ) : ℚ) - 1)) ≤
          (((m + 2 : ℕ) : ℚ) - 1) * ((b - a) / (((m + 2 : ℕ) : ℚ) - 1)) :=
        mul_le_mul_of_nonneg_right hin hd
      have hne : (((m + 2 : ℕ) : ℚ) - 1) ≠ 0 := by linarith
      have hcancel : (((m + 2 : ℕ) : ℚ) - 1) * ((b - a) / (((m + 2 : ℕ) : ℚ) - 1)) = b - a := by
        rw [mul_comm, div_mul_cancel₀ _ hne]
      linarith

/-- The first sample of a nonempty `linspace` is the left endpoint. -/
theorem linspace_head (a b : ℚ) {n : ℕ} (h : 0 < n) :
    (linspace a b n).head? = some a := by
  rcases n with _ | _ | m
  · omega
  · rfl
  · rw [linspace_eq_map a b (by omega : 2 ≤ m + 2), List.range_succ_eq_map,
      List.map_cons, List.head?_cons]
    norm_num

/-- The last sample of a `linspace` with at least two samples is the right
endpoint. -/
theorem linspace_getLast (a b : ℚ) {n : ℕ} (h2 : 2 ≤ n) :
    (linspace a b n).getLast? = some b := by
  have hlen : (linspace a b n).length = n := linspace_length a b n
  have hlt : (linspace a b n).length - 1 < (linspace a b n).length := by omega
  rw [List.getLast?_eq_getElem?, List.getElem?_eq_getElem hlt]
  have key := linspace_get a b h2 (n - 1) (by omega)
  rw [List.get_eq_getElem] at key
  simp only [hlen]
  rw [key]
  have hn' : (2 : ℚ) ≤ (n : ℚ) := by exact_mod_cast h2
  have hne : ((n : ℚ) - 1) ≠ 0 := by linarith
  have hcast : (((n - 1 : ℕ)) : ℚ) = (n : ℚ) - 1 := by
    rw [Nat.cast_sub (by omega : 1 ≤ n), Nat.cast_one]
  rw [hcast, mul_comm, div_mul_cancel₀ _ hne]
  norm_num

/-- A fold of `min` only goes down. -/
theorem foldl_min_le (t : List ℚ) : ∀ b : ℚ, t.foldl min b ≤ b := by
  induction t with
  | nil => exact fun b => le_refl b
  | cons c t ih => exact fun b => le_trans (ih (min b c)) (min_le_left b c)

/-- A fold of `max` only goes up. -/
theorem le_foldl_max (t : List ℚ) : ∀ b : ℚ, b ≤ t.foldl max b := by
  induction t with
  | nil => exact fun b => le_refl b
  | cons c t ih => exact fun b => le_trans (le_max_left b c) (ih (max b c))

/-- The minimum of a nonempty list is at most its maximum. -/
theorem listMinD_le_listMaxD {l : List ℚ} (h : l ≠ []) : listMinD l ≤ listMaxD l := by
  match l, h with
  | a :: t, _ => exact le_trans (foldl_min_le t a) (le_foldl_max t a)

/-- The latitude bounds of a nonempty boundary are ordered. -/
theorem latMinD_le_latMaxD {bd : List (ℚ × ℚ)} (h : bd ≠ []) : latMinD bd ≤ latMaxD bd :=
  listMinD_le_listMaxD (by simpa using h)

/-- The longitude bounds of a nonempty boundary are ordered. -/
theorem lonMinD_le_lonMaxD {bd : List (ℚ × ℚ)} (h : bd ≠ []) : lonMinD bd ≤ lonMaxD bd :=
  listMinD_le_listMaxD (by simpa using h)

/-- Length of a cross product built by `flatMap` over `map`. -/
theorem length_cross {α β γ : Type} (l1 : List α) (l2 : List β) (f : α → β → γ) :
    (l1.flatMap fun u => l2.map (f u)).length = l1.length * l2.length := by
  induction l1 with
  | nil => simp
  | cons u t ih =>
    simp only [List.flatMap_cons, List.length_append, List.length_map, ih, List.length_cons]
    ring

/-- Claim C3: with a positive integral effective grid dimension (which
requires `zoom >= 18`; below that the source crashes, flagged as an open
question by the spec), the dimension equals
`grid_size * 2 ^ (zoom - 18)`, both linspace arrays have that many entries,
all entries lie between the respective bounds inclusive with the extreme
entries attained and constant consecutive spacing, and the candidate count
is the square of the dimension. -/
theorem claim_C3_grid (bd : List (ℚ × ℚ)) (grid_size : ℕ) (zoom : ℤ) (size : ℕ)
    (hbd : bd ≠ []) (hsz : actualGridSize grid_size zoom = some size) (hpos : 0 < size) :
    ((size : ℚ) = (grid_size : ℚ) * (2 : ℚ) ^ (zoom - (18 : ℤ))) ∧
    (latStepsOf bd grid_size zoom).length = size ∧
    (lonStepsOf bd grid_size zoom).length = size ∧
    totalPointsOf bd grid_size zoom = size ^ 2 ∧
    (candidatesOf bd grid_size zoom).length = size ^ 2 ∧
    (∀ x ∈ latStepsOf bd grid_size zoom, latMinD bd ≤ x ∧ x ≤ latMaxD bd) ∧
    (∀ x ∈ lonStepsOf bd grid_size zoom, lonMinD bd ≤ x ∧ x ≤ lonMaxD bd) ∧
    (latStepsOf bd grid_size zoom).head? = some (latMinD bd) ∧
    (lonStepsOf bd grid_size zoom).head? = some (lonMinD bd) ∧
    (2 ≤ size → (latStepsOf bd grid_size zoom).getLast? = some (latMaxD bd)) ∧
    (2 ≤ size → (lonStepsOf bd grid_size zoom).getLast? = some (lonMaxD bd)) ∧
    (∀ i : ℕ, ∀ h1 : i + 1 < (latStepsOf bd grid_size zoom).length,
      (latStepsOf bd grid_size zoom).get ⟨i + 1, h1⟩ -
        (latStepsOf bd grid_size zoom).get ⟨i, Nat.lt_of_succ_lt h1⟩ =
        (latMaxD bd - latMinD bd) / ((size : ℚ) - 1)) := by
  have h18 : 18 ≤ zoom := by
    by_contra hlt
    unfold actualGridSize at hsz
    rw [if_neg hlt] at hsz
    exact Option.noConfusion hsz
  have hval : size = grid_size * 2 ^ (zoom - 18).toNat := by
    unfold actualGridSize at hsz
    rw [if_pos h18] at hsz
    exact (Option.some.inj hsz).symm
  have hlat : latStepsOf bd grid_size zoom = linspace (latMinD bd) (latMaxD bd) size := by
    unfold latStepsOf
    rw [hsz]
  have hlon : lonStepsOf bd grid_size zoom = linspace (lonMinD bd) (lonMaxD bd) size := by
    unfold lonStepsOf
    rw [hsz]
  refine ⟨?_, ?_, ?_, ?_, ?_, ?_, ?_, ?_, ?_, ?_, ?_, ?_⟩
  · rw [hval]
    push_cast
    rw [← zpow_natCast (2 : ℚ) (zoom - 18).toNat, Int.toNat_of_nonneg (by linarith)]
  · rw [hlat, linspace_length]
  · rw [hlon, linspace_length]
  · unfold totalPointsOf
    rw [hlat, hlon, linspace_length, linspace_length, pow_two]
  · have hc := length_cross (linspace (latMinD bd) (latMaxD bd) size)
      (linspace (lonMinD bd) (lonMaxD bd) size) (fun u v => (u, v))
    unfold candidatesOf
    rw [hlat, hlon]
    exact hc.trans (by rw [linspace_length, linspace_length, pow_two])
  · intro x hx
    rw [hlat] at hx
    exact linspace_mem _ _ (latMinD_le_latMaxD hbd) hx
  · intro x hx
    rw [hlon] at hx
    exact linspace_mem _ _ (lonMinD_le_lonMaxD hbd) hx
  · rw [hlat]
    exact linspace_head _ _ hpos
  · rw [hlon]
    exact linspace_head _ _ hpos
  · intro h2
    rw [hlat]
    exact linspace_getLast _ _ h2
  · intro h2
    rw [hlon]
    exact linspace_getLast _ _ h2
  · intro i h1
    have hlen : (latStepsOf bd grid_size zoom).length = size := by
      rw [hlat, linspace_length]
    have h2 : 2 ≤ size := by omega
    rw [List.get_of_eq hlat ⟨i + 1, h1⟩, List.get_of_eq hlat ⟨i, Nat.lt_of_succ_lt h1⟩,
      linspace_get _ _ h2, linspace_get _ _ h2]
    push_cast
    ring

/-- Witness for claim C3 at the square boundary with `grid_size = 2` and
zoom 19, where the effective dimension is 4. -/
theorem claim_C3_witness :
    (latStepsOf [(0,0),(0,2),(2,2),(2,0),(0,0)] 2 19).length = 4 ∧
    totalPointsOf [(0,0),(0,2),(2,2),(2,0),(0,0)] 2 19 = 16 ∧
    (candidatesOf [(0,0),(0,2),(2,2),(2,0),(0,0)] 2 19).length = 16 := by
  have h := claim_C3_grid [(0,0),(0,2),(2,2),(2,0),(0,0)] 2 19 4 (by decide) (by decide)
    (by decide)
  exact ⟨h.2.1, h.2.2.2.1.trans (by norm_num), h.2.2.2.2.1.trans (by norm_num)⟩

/-- Claim C8: an effective grid dimension of 1 yields the singleton
latitude array `[lat_min]`, the singleton longitude array `[lon_min]`, and
the single candidate `(lat_min, lon_min)`. -/
theorem claim_C8_singleton (bd : List (ℚ × ℚ)) (grid_size : ℕ) (zoom : ℤ)
    (hbd : bd ≠ []) (hsz : actualGridSize grid_size zoom = some 1) :
    latStepsOf bd grid_size zoom = [latMinD bd] ∧
    lonStepsOf bd grid_size zoom = [lonMinD bd] ∧
    candidatesOf bd grid_size zoom = [(latMinD bd, lonMinD bd)] := by
  have hlat : latStepsOf bd grid_size zoom = linspace (latMinD bd) (latMaxD bd) 1 := by
    unfold latStepsOf
    rw [hsz]
  have hlon : lonStepsOf bd grid_size zoom = linspace (lonMinD bd) (lonMaxD bd) 1 := by
    unfold lonStepsOf
    rw [hsz]
  refine ⟨hlat, hlon, ?_⟩
  unfold candidatesOf
  rw [hlat, hlon]
  rfl

/-- Witness for claim C8: the square boundary with base grid 1 at zoom 18. -/
theorem claim_C8_witness :
    latStepsOf [(0,0),(0,2),(2,2),(2,0),(0,0)] 1 18 =
      [latMinD [(0,0),(0,2),(2,2),(2,0),(0,0)]] ∧
    lonStepsOf [(0,0),(0,2),(2,2),(2,0),(0,0)] 1 18 =
      [lonMinD [(0,0),(0,2),(2,2),(2,0),(0,0)]] ∧
    candidatesOf [(0,0),(0,2),(2,2),(2,0),(0,0)] 1 18 =
      [(latMinD [(0,0),(0,2),(2,2),(2,0),(0,0)],
        lonMinD [(0,0),(0,2),(2,2),(2,0),(0,0)])] :=
  claim_C8_singleton [(0,0),(0,2),(2,2),(2,0),(0,0)] 1 18 (by decide) (by decide)

/-- Claim C6: the step-size computation follows
`0.001 * 2 ^ (18 - zoom)` in both components, moving from zoom 18 to 19
halves it while the effective grid dimension for base 4 doubles from 4 to
8, and the candidate sequence is a function of the bounding box and the
effective dimension alone, with no step input. -/
theorem claim_C6_step_grid_independent :
    (∀ z : ℤ, calculate_grid_step z =
      ((1 / 1000 : ℚ) * (2 : ℚ) ^ ((18 : ℤ) - z),
       (1 / 1000 : ℚ) * (2 : ℚ) ^ ((18 : ℤ) - z))) ∧
    (calculate_grid_step 19).1 = (calculate_grid_step 18).1 / 2 ∧
    (calculate_grid_step 19).2 = (calculate_grid_step 18).2 / 2 ∧
    actualGridSize 4 19 = some 8 ∧
    actualGridSize 4 18 = some 4 ∧
    (∀ (bd : List (ℚ × ℚ)) (grid_size : ℕ) (zoom : ℤ) (size : ℕ),
        actualGridSize grid_size zoom = some size →
        candidatesOf bd grid_size zoom =
          gridCandidates (latMinD bd) (latMaxD bd) (lonMinD bd) (lonMaxD bd) size) := by
  refine ⟨fun z => rfl, ?_, ?_, by decide, by decide, ?_⟩
  · show (1 / 1000 : ℚ) * (2 : ℚ) ^ ((18 : ℤ) - 19) =
      (1 / 1000 : ℚ) * (2 : ℚ) ^ ((18 : ℤ) - 18) / 2
    norm_num
  · show (1 / 1000 : ℚ) * (2 : ℚ) ^ ((18 : ℤ) - 19) =
      (1 / 1000 : ℚ) * (2 : ℚ) ^ ((18 : ℤ) - 18) / 2
    norm_num
  · intro bd grid_size zoom size hsz
    unfold candidatesOf gridCandidates latStepsOf lonStepsOf
    rw [hsz]

/-- Witness for claim C6: the candidate sequence of the square boundary at
zoom 18 with base 2 is the step-free grid of its bounding box at dimension
2. -/
theorem claim_C6_witness :
    candidatesOf [(0,0),(0,2),(2,2),(2,0),(0,0)] 2 18 =
      gridCandidates (latMinD [(0,0),(0,2),(2,2),(2,0),(0,0)])
        (latMaxD [(0,0),(0,2),(2,2),(2,0),(0,0)])
        (lonMinD [(0,0),(0,2),(2,2),(2,0),(0,0)])
        (lonMaxD [(0,0),(0,2),(2,2),(2,0),(0,0)]) 2 :=
  claim_C6_step_grid_independent.2.2.2.2.2 [(0,0),(0,2),(2,2),(2,0),(0,0)] 2 18 2 (by decide)

/-- An environment with no failure has all three collaborator calls
succeeding. -/
theorem pointFail_eq_none {pe : PointEnv} (h : pointFail pe = none) :
    pe.navErr = none ∧ pe.capErr = none ∧ pe.saveErr = none := by
  unfold pointFail at h
  cases hn : pe.navErr with
  | some e => rw [hn] at h; exact Option.noConfusion h
  | none =>
    rw [hn] at h
    cases hc : pe.capErr with
    | some e => rw [hc] at h; exact Option.noConfusion h
    | none => rw [hc] at h; exact ⟨rfl, rfl, h⟩

/-- Per-point processing with no collaborator failure emits exactly the
`okBlock` events and raises nothing, whether or not the load signal was
observed. -/
theorem processPoint_ok (zoom : ℤ) {pe : PointEnv} (h : pointFail pe = none)
    (lat lon : ℚ) (processed total : ℕ) :
    processPoint zoom pe lat lon processed total =
      (okBlock zoom pe (lat, lon) processed total, none) := by
  obtain ⟨hn, hc, hs⟩ := pointFail_eq_none h
  simp [processPoint, okBlock, hn, hc, hs]

/-- With a failure-free environment the loop processes every in-boundary
candidate, emits the `okTrace`, raises nothing, and its counter advances by
the number of in-boundary candidates. -/
theorem scanLoop_ok (bd : List (ℚ × ℚ)) (zoom : ℤ) (env : ℕ → PointEnv) (total : ℕ)
    (henv : ∀ j, pointFail (env j) = none) :
    ∀ (cands : List (ℚ × ℚ)) (i processed : ℕ),
      scanLoop bd zoom env total cands i processed =
        (okTrace bd zoom env total cands i processed,
         processed + inBoundCount bd cands, none) := by
  intro cands
  induction cands with
  | nil => intro i processed; simp [scanLoop, okTrace, inBoundCount]
  | cons c rest ih =>
    intro i processed
    by_cases hin : point_in_polygon c bd = true
    · have hp := processPoint_ok zoom (henv i) c.1 c.2 processed total
      simp only [scanLoop, okTrace, hin, if_true, hp, ih (i + 1) (processed + 1),
        inBoundCount, List.countP_cons, Prod.mk.injEq, true_and, and_true]
      omega
    · have hf : point_in_polygon c bd = false := by
        simpa using hin
      simp only [scanLoop, okTrace, hf, Bool.false_eq_true, if_false,
        ih (i + 1) processed, inBoundCount, List.countP_cons, Prod.mk.injEq,
        true_and, and_true]
      omega

/-- Per-point processing propagates the first collaborator failure. -/
theorem processPoint_fail (zoom : ℤ) {pe : PointEnv} {e : ScanError}
    (h : pointFail pe = some e) (lat lon : ℚ) (processed total : ℕ) :
    (processPoint zoom pe lat lon processed total).2 = some e := by
  rcases pe with ⟨navErr, loaded, capErr, saveErr⟩
  cases navErr with
  | some e1 =>
    simp only [pointFail, Option.some.injEq] at h
    simp [processPoint, h]
  | none =>
    cases capErr with
    | some e1 =>
      simp only [pointFail, Option.some.injEq] at h
      simp [processPoint, h]
    | none =>
      simp only [pointFail] at h
      simp [processPoint, h]

/-- The loop propagates the failure of the first in-boundary candidate
whose environment fails. -/
theorem scanLoop_fail (bd : List (ℚ × ℚ)) (zoom : ℤ) (env : ℕ → PointEnv) (total : ℕ) :
    ∀ (cands : List (ℚ × ℚ)) (i processed k : ℕ) (e : ScanError)
      (hk : k < cands.length),
      point_in_polygon (cands.get ⟨k, hk⟩) bd = true →
      pointFail (env (i + k)) = some e →
      (∀ j, ∀ hj : j < k,
        point_in_polygon (cands.get ⟨j, by omega⟩) bd = true →
        pointFail (env (i + j)) = none) →
      (scanLoop bd zoom env total cands i processed).2.2 = some e := by
  intro cands
  induction cands with
  | nil =>
    intro i processed k e hk
    exact absurd hk (by simp)
  | cons c rest ih =>
    intro i processed k e hk hin hfail hbefore
    cases k with
    | zero =>
      have hc : point_in_polygon c bd = true := hin
      have hf : pointFail (env i) = some e := by simpa using hfail
      cases hpp : processPoint zoom (env i) c.1 c.2 processed total with
      | mk evs err =>
        have herr : err = some e := by
          have := processPoint_fail zoom hf c.1 c.2 processed total
          rw [hpp] at this
          exact this
        subst herr
        simp only [scanLoop, hc, if_true, hpp]
    | succ m =>
      have hm : m < rest.length := by
        have := hk
        simp at this
        omega
      have hin2 : point_in_polygon (rest.get ⟨m, hm⟩) bd = true := hin
      have hfail2 : pointFail (env (i + 1 + m)) = some e := by
        have : i + 1 + m = i + (m + 1) := by omega
        rw [this]
        exact hfail
      by_cases hc : point_in_polygon c bd = true
      · have h0 : pointFail (env i) = none := by
          have := hbefore 0 (by omega) hc
          simpa using this
        have hpp := processPoint_ok zoom h0 c.1 c.2 processed total
        simp only [scanLoop, hc, if_true, hpp]
        exact ih (i + 1) (processed + 1) m e hm hin2 hfail2 fun j hj hbj => by
          have : i + 1 + j = i + (j + 1) := by omega
          rw [this]
          exact hbefore (j + 1) (by omega) hbj
      · have hf : point_in_polygon c bd = false := by simpa using hc
        simp only [scanLoop, hf, Bool.false_eq_true, if_false]
        exact ih (i + 1) processed m e hm hin2 hfail2 fun j hj hbj => by
          have : i + 1 + j = i + (j + 1) := by omega
          rw [this]
          exact hbefore (j + 1) (by omega) hbj

/-- Under a nonempty boundary and a valid grid size, `scan_city` is the
loop result with the `quit` event appended. -/
theorem scan_city_eq (bot : BotState) (grid_size n : ℕ) (env : ℕ → PointEnv)
    (hbd : bot.boundary_coords ≠ [])
    (hsz : actualGridSize grid_size bot.zoom_level = some n) :
    scan_city bot grid_size env =
      ⟨(scanLoop bot.boundary_coords bot.zoom_level env
          (totalPointsOf bot.boundary_coords grid_size bot.zoom_level)
          (candidatesOf bot.boundary_coords grid_size bot.zoom_level) 0 0).1 ++ [Ev.quit],
       (scanLoop bot.boundary_coords bot.zoom_level env
          (totalPointsOf bot.boundary_coords grid_size bot.zoom_level)
          (candidatesOf bot.boundary_coords grid_size bot.zoom_level) 0 0).2.1,
       (scanLoop bot.boundary_coords bot.zoom_level env
          (totalPointsOf bot.boundary_coords grid_size bot.zoom_level)
          (candidatesOf bot.boundary_coords grid_size bot.zoom_level) 0 0).2.2⟩ := by
  obtain ⟨p, t, hpt⟩ := List.exists_cons_of_ne_nil hbd
  unfold scan_city candidatesOf totalPointsOf latStepsOf lonStepsOf
  rw [hpt, hsz]

/-- The block of one captured point contains exactly one progress print,
and it carries the incremented counter. -/
theorem okBlock_progress (zoom : ℤ) (pe : PointEnv) (c : ℚ × ℚ) (processed total : ℕ) :
    (okBlock zoom pe c processed total).filterMap progressOf = [(processed + 1, total)] := by
  cases h : pe.loaded <;> simp [okBlock, h, progressOf]

/-- The progress prints of an uninterrupted loop are exactly one per
captured point, counting up from the starting counter, each over the same
total. -/
theorem okTrace_progress (bd : List (ℚ × ℚ)) (zoom : ℤ) (env : ℕ → PointEnv) (total : ℕ) :
    ∀ (cands : List (ℚ × ℚ)) (i processed : ℕ),
      progressReports (okTrace bd zoom env total cands i processed) =
        (List.range (inBoundCount bd cands)).map fun k => (processed + 1 + k, total) := by
  intro cands
  induction cands with
  | nil =>
    intro i processed
    simp [okTrace, progressReports, inBoundCount]
  | cons c rest ih =>
    intro i processed
    by_cases hin : point_in_polygon c bd = true
    · have hcnt : inBoundCount bd (c :: rest) = inBoundCount bd rest + 1 := by
        simp [inBoundCount, List.countP_cons, hin]
      rw [hcnt]
      simp only [okTrace, hin, if_true, progressReports, List.filterMap_append]
      have htail : (okTrace bd zoom env total rest (i + 1) (processed + 1)).filterMap
          progressOf = (List.range (inBoundCount bd rest)).map
            fun k => (processed + 1 + 1 + k, total) := ih (i + 1) (processed + 1)
      rw [okBlock_progress, htail, List.range_succ_eq_map, List.map_cons, List.map_map]
      rw [List.singleton_append]
      congr 1
      apply List.map_congr_left
      intro k hk
      simp only [Function.comp_apply, Prod.mk.injEq, and_true]
      omega
    · have hf : point_in_polygon c bd = false := by simpa using hin
      have hcnt : inBoundCount bd (c :: rest) = inBoundCount bd rest := by
        simp [inBoundCount, List.countP_cons, hf]
      rw [hcnt]
      simp only [okTrace, hf, Bool.false_eq_true, if_false]
      exact ih (i + 1) processed

/-- Last element of a mapped range. -/
theorem getLast?_map_range {α : Type} (n : ℕ) (f : ℕ → α) :
    ((List.range n).map f).getLast? = if n = 0 then none else some (f (n - 1)) := by
  cases n with
  | zero => rfl
  | succ m =>
    rw [if_neg (by omega), List.getLast?_eq_getElem?]
    have hlen : ((List.range (m + 1)).map f).length = m + 1 := by
      rw [List.length_map, List.length_range]
    rw [hlen, List.getElem?_eq_getElem (by rw [hlen]; omega)]
    simp

/-- Every block of a captured point respects the progress-placement
discipline. -/
theorem okBlock_chain (zoom : ℤ) (pe : PointEnv) (c : ℚ × ℚ) (processed total : ℕ) :
    List.Chain' savedBeforeProgress (okBlock zoom pe c processed total) := by
  cases h : pe.loaded <;>
    simp [okBlock, h, List.chain'_cons, savedBeforeProgress, isProgress, isSaved]

/-- The uninterrupted loop trace, with the final `quit` appended, lets a
progress print only directly follow a saved screenshot, and never starts
with a progress print. -/
theorem okTrace_chain (bd : List (ℚ × ℚ)) (zoom : ℤ) (env : ℕ → PointEnv) (total : ℕ) :
    ∀ (cands : List (ℚ × ℚ)) (i processed : ℕ),
      List.Chain' savedBeforeProgress
        (okTrace bd zoom env total cands i processed ++ [Ev.quit]) ∧
      (∀ e, (okTrace bd zoom env total cands i processed ++ [Ev.quit]).head? = some e →
        isProgress e = false) := by
  intro cands
  induction cands with
  | nil =>
    intro i processed
    constructor
    · simp [okTrace]
    · intro e he
      simp [okTrace] at he
      rw [← he]
      rfl
  | cons c rest ih =>
    intro i processed
    by_cases hin : point_in_polygon c bd = true
    · constructor
      · simp only [okTrace, hin, if_true, List.append_assoc]
        rw [List.chain'_append]
        refine ⟨okBlock_chain zoom (env i) c processed total,
          (ih (i + 1) (processed + 1)).1, ?_⟩
        intro x hx y hy
        intro hpy
        have := (ih (i + 1) (processed + 1)).2 y hy
        rw [hpy] at this
        exact Bool.noConfusion this
      · intro e he
        simp only [okTrace, hin, if_true, List.append_assoc] at he
        rw [okBlock] at he
        rw [List.cons_append, List.head?_cons] at he
        rw [← Option.some.inj he]
        rfl
    · have hf : point_in_polygon c bd = false := by simpa using hin
      simp only [okTrace, hf, Bool.false_eq_true, if_false]
      exact ih (i + 1) processed

/-- Per-point processing never releases the browser. -/
theorem processPoint_no_quit (zoom : ℤ) (pe : PointEnv) (lat lon : ℚ)
    (processed total : ℕ) :
    (processPoint zoom pe lat lon processed total).1.countP isQuit = 0 := by
  rcases pe with ⟨navErr, loaded, capErr, saveErr⟩
  cases navErr <;> cases capErr <;> cases saveErr <;> cases loaded <;>
    simp [processPoint, isQuit]

/-- The loop never releases the browser. -/
theorem scanLoop_no_quit (bd : List (ℚ × ℚ)) (zoom : ℤ) (env : ℕ → PointEnv) (total : ℕ) :
    ∀ (cands : List (ℚ × ℚ)) (i processed : ℕ),
      ((scanLoop bd zoom env total cands i processed).1).countP isQuit = 0 := by
  intro cands
  induction cands with
  | nil => intro i processed; simp [scanLoop]
  | cons c rest ih =>
    intro i processed
    by_cases hin : point_in_polygon c bd = true
    · cases hpp : processPoint zoom (env i) c.1 c.2 processed total with
      | mk evs err =>
        have hevq : evs.countP isQuit = 0 := by
          have := processPoint_no_quit zoom (env i) c.1 c.2 processed total
          rw [hpp] at this
          exact this
        cases err with
        | some e => simp [scanLoop, hin, hpp, hevq]
        | none => simp [scanLoop, hin, hpp, List.countP_append, hevq, ih]
    · have hf : point_in_polygon c bd = false := by simpa using hin
      simp [scanLoop, hf, ih]

/-- Per-point processing mentions only the zoom it was handed. -/
theorem processPoint_zoomOk (zoom : ℤ) (pe : PointEnv) (lat lon : ℚ)
    (processed total : ℕ) :
    (processPoint zoom pe lat lon processed total).1.all (evZoomOk zoom) = true := by
  rcases pe with ⟨navErr, loaded, capErr, saveErr⟩
  cases navErr <;> cases capErr <;> cases saveErr <;> cases loaded <;>
    simp [processPoint, evZoomOk]

/-- The loop mentions only the zoom it was handed. -/
theorem scanLoop_zoomOk (bd : List (ℚ × ℚ)) (zoom : ℤ) (env : ℕ → PointEnv) (total : ℕ) :
    ∀ (cands : List (ℚ × ℚ)) (i processed : ℕ),
      ((scanLoop bd zoom env total cands i processed).1).all (evZoomOk zoom) = true := by
  intro cands
  induction cands with
  | nil => intro i processed; simp [scanLoop]
  | cons c rest ih =>
    intro i processed
    by_cases hin : point_in_polygon c bd = true
    · cases hpp : processPoint zoom (env i) c.1 c.2 processed total with
      | mk evs err =>
        have hevz : evs.all (evZoomOk zoom) = true := by
          have := processPoint_zoomOk zoom (env i) c.1 c.2 processed total
          rw [hpp] at this
          exact this
        cases err with
        | some e => simp [scanLoop, hin, hpp, hevz]
        | none => simp [scanLoop, hin, hpp, List.all_append, hevz, ih]
    · have hf : point_in_polygon c bd = false := by simpa using hin
      simp [scanLoop, hf, ih]

/-- The stored boundary of an initialized bot. -/
theorem initBot_boundary (c : String) (b : List (ℚ × ℚ)) (z : ℤ) :
    (initBot c b z).boundary_coords = b := rfl

/-- The stored zoom of an initialized bot. -/
theorem initBot_zoom (c : String) (b : List (ℚ × ℚ)) (z : ℤ) :
    (initBot c b z).zoom_level = min 21 (max 0 z) := rfl

/-- Claim C2: on every execution path of the scan — normal completion, the
empty-boundary crash inside the bounding-box computation, the fractional
grid-size crash, or any collaborator failure while navigating, capturing or
saving — the browser release `driver.quit` happens exactly once, as the
last action before the scan returns or the failure propagates. -/
theorem claim_C2_quit_exactly_once (bot : BotState) (grid_size : ℕ) (env : ℕ → PointEnv) :
    ((scan_city bot grid_size env).trace.countP isQuit = 1) ∧
    (scan_city bot grid_size env).trace.getLast? = some Ev.quit := by
  unfold scan_city
  cases hbd : bot.boundary_coords with
  | nil => exact ⟨rfl, rfl⟩
  | cons p t =>
    cases hsz : actualGridSize grid_size bot.zoom_level with
    | none => exact ⟨rfl, rfl⟩
    | some n =>
      constructor
      · simp only [List.countP_append, scanLoop_no_quit]
        rfl
      · simp only [List.getLast?_concat]

/-- Claim C1, as stated, is false: `total_points` on line 118 counts every
grid candidate while `processed_points` counts only captured ones, so a
full, uninterrupted run over the square boundary with a 2 by 2 grid — whose
four corner candidates contain exactly one in-boundary point — completes
normally with a final progress report of `1/4`, a percentage of 25, not
100. -/
theorem claim_C1_counterexample :
    (scan_city (initBot "Surabaya" [(0,0),(0,2),(2,2),(2,0),(0,0)] 18) 2
      fun _ => okEnv).err = none ∧
    lastProgress (scan_city (initBot "Surabaya" [(0,0),(0,2),(2,2),(2,0),(0,0)] 18) 2
      fun _ => okEnv).trace = some (1, 4) ∧
    (100 : ℚ) * 1 / 4 ≠ 100 := by
  refine ⟨?_, ?_, by norm_num⟩ <;>
    norm_num [scan_city, initBot, actualGridSize, latStepsOf, lonStepsOf, latMinD, latMaxD,
      lonMinD, lonMaxD, listMinD, listMaxD, linspace, List.range_succ, scanLoop, processPoint,
      okEnv, point_in_polygon, pipRun, pipEdges, pipStep, lastProgress, progressReports,
      progressOf, pointFail]

/-- Claim C1 (amended): a full, uninterrupted run (no collaborator failure;
load timeouts allowed) over a nonempty boundary with a valid grid size
completes normally; its trace is one event block per captured in-boundary
candidate and nothing for skipped candidates, the k-th progress report
reading `(k, total)` over the full candidate count; a progress report only
directly follows a saved screenshot and never opens the trace; and the
final progress report is `(captured, total)` — a percentage of
`100 * captured / total`, which is 100 only when every candidate is
captured, not in general. -/
theorem claim_C1_amended (bot : BotState) (grid_size n : ℕ) (env : ℕ → PointEnv)
    (hbd : bot.boundary_coords ≠ [])
    (hsz : actualGridSize grid_size bot.zoom_level = some n)
    (henv : ∀ j, pointFail (env j) = none) :
    (scan_city bot grid_size env).err = none ∧
    (scan_city bot grid_size env).trace =
      okTrace bot.boundary_coords bot.zoom_level env
        (totalPointsOf bot.boundary_coords grid_size bot.zoom_level)
        (candidatesOf bot.boundary_coords grid_size bot.zoom_level) 0 0 ++ [Ev.quit] ∧
    (scan_city bot grid_size env).processed =
      inBoundCount bot.boundary_coords
        (candidatesOf bot.boundary_coords grid_size bot.zoom_level) ∧
    progressReports (scan_city bot grid_size env).trace =
      (List.range (inBoundCount bot.boundary_coords
        (candidatesOf bot.boundary_coords grid_size bot.zoom_level))).map
        (fun k => (k + 1, totalPointsOf bot.boundary_coords grid_size bot.zoom_level)) ∧
    List.Chain' savedBeforeProgress (scan_city bot grid_size env).trace ∧
    (∀ e, (scan_city bot grid_size env).trace.head? = some e → isProgress e = false) ∧
    lastProgress (scan_city bot grid_size env).trace =
      (if inBoundCount bot.boundary_coords
          (candidatesOf bot.boundary_coords grid_size bot.zoom_level) = 0
       then none
       else some (inBoundCount bot.boundary_coords
          (candidatesOf bot.boundary_coords grid_size bot.zoom_level),
        totalPointsOf bot.boundary_coords grid_size bot.zoom_level)) := by
  have hsc := scan_city_eq bot grid_size n env hbd hsz
  have hloop := scanLoop_ok bot.boundary_coords bot.zoom_level env
    (totalPointsOf bot.boundary_coords grid_size bot.zoom_level) henv
    (candidatesOf bot.boundary_coords grid_size bot.zoom_level) 0 0
  have herr : (scan_city bot grid_size env).err = none := by
    rw [hsc, hloop]
  have htrace : (scan_city bot grid_size env).trace =
      okTrace bot.boundary_coords bot.zoom_level env
        (totalPointsOf bot.boundary_coords grid_size bot.zoom_level)
        (candidatesOf bot.boundary_coords grid_size bot.zoom_level) 0 0 ++ [Ev.quit] := by
    rw [hsc, hloop]
  have hproc : (scan_city bot grid_size env).processed =
      inBoundCount bot.boundary_coords
        (candidatesOf bot.boundary_coords grid_size bot.zoom_level) := by
    rw [hsc, hloop]
    simp
  have hpr : progressReports (scan_city bot grid_size env).trace =
      (List.range (inBoundCount bot.boundary_coords
        (candidatesOf bot.boundary_coords grid_size bot.zoom_level))).map
        (fun k => (0 + 1 + k, totalPointsOf bot.boundary_coords grid_size bot.zoom_level)) := by
    rw [htrace, progressReports, List.filterMap_append]
    have hq : ([Ev.quit]).filterMap progressOf = [] := rfl
    rw [hq, List.append_nil]
    exact okTrace_progress bot.boundary_coords bot.zoom_level env
      (totalPointsOf bot.boundary_coords grid_size bot.zoom_level)
      (candidatesOf bot.boundary_coords grid_size bot.zoom_level) 0 0
  refine ⟨herr, htrace, hproc, ?_, ?_, ?_, ?_⟩
  · rw [hpr]
    apply List.map_congr_left
    intro k hk
    simp only [Prod.mk.injEq, and_true]
    omega
  · rw [htrace]
    exact (okTrace_chain bot.boundary_coords bot.zoom_level env
      (totalPointsOf bot.boundary_coords grid_size bot.zoom_level)
      (candidatesOf bot.boundary_coords grid_size bot.zoom_level) 0 0).1
  · rw [htrace]
    exact (okTrace_chain bot.boundary_coords bot.zoom_level env
      (totalPointsOf bot.boundary_coords grid_size bot.zoom_level)
      (candidatesOf bot.boundary_coords grid_size bot.zoom_level) 0 0).2
  · rw [lastProgress, hpr, getLast?_map_range]
    by_cases h0 : inBoundCount bot.boundary_coords
        (candidatesOf bot.boundary_coords grid_size bot.zoom_level) = 0
    · rw [if_pos h0, if_pos h0]
    · rw [if_neg h0, if_neg h0]
      simp only [Option.some.injEq, Prod.mk.injEq, and_true]
      omega

/-- Witness for the amended claim C1: the square boundary run of the
counterexample, now measured against the corrected final report. -/
theorem claim_C1_amended_witness :
    (scan_city (initBot "Surabaya" [(0,0),(0,2),(2,2),(2,0),(0,0)] 18) 2
      fun _ => okEnv).err = none ∧
    (scan_city (initBot "Surabaya" [(0,0),(0,2),(2,2),(2,0),(0,0)] 18) 2
      fun _ => okEnv).processed =
      inBoundCount (initBot "Surabaya" [(0,0),(0,2),(2,2),(2,0),(0,0)] 18).boundary_coords
        (candidatesOf (initBot "Surabaya" [(0,0),(0,2),(2,2),(2,0),(0,0)] 18).boundary_coords
          2 (initBot "Surabaya" [(0,0),(0,2),(2,2),(2,0),(0,0)] 18).zoom_level) := by
  have h := claim_C1_amended (initBot "Surabaya" [(0,0),(0,2),(2,2),(2,0),(0,0)] 18) 2 2
    (fun _ => okEnv) (by decide) (by decide) (fun j => rfl)
  exact ⟨h.1, h.2.2.1⟩

/-- Claim C5: with a nonempty boundary and a valid grid size, a load-wait
timeout is recovered locally — an environment with no collaborator failure,
whatever its load outcomes, yields a normal completion whose trace contains
the full block (timeout warning included, capture performed) of every
in-boundary candidate — whereas the first uncaught failure of a
navigation, capture or save call at an in-boundary point propagates and
ends the run with that error. -/
theorem claim_C5_timeout_recovered_failures_fatal (bot : BotState) (grid_size n : ℕ)
    (env : ℕ → PointEnv)
    (hbd : bot.boundary_coords ≠ [])
    (hsz : actualGridSize grid_size bot.zoom_level = some n) :
    ((∀ j, pointFail (env j) = none) →
      (scan_city bot grid_size env).err = none ∧
      (scan_city bot grid_size env).trace =
        okTrace bot.boundary_coords bot.zoom_level env
          (totalPointsOf bot.boundary_coords grid_size bot.zoom_level)
          (candidatesOf bot.boundary_coords grid_size bot.zoom_level) 0 0 ++ [Ev.quit] ∧
      (scan_city bot grid_size env).processed =
        inBoundCount bot.boundary_coords
          (candidatesOf bot.boundary_coords grid_size bot.zoom_level)) ∧
    (∀ (k : ℕ) (e : ScanError)
      (hk : k < (candidatesOf bot.boundary_coords grid_size bot.zoom_level).length),
      point_in_polygon
        ((candidatesOf bot.boundary_coords grid_size bot.zoom_level).get ⟨k, hk⟩)
        bot.boundary_coords = true →
      pointFail (env k) = some e →
      (∀ j, ∀ hj : j < k,
        point_in_polygon
          ((candidatesOf bot.boundary_coords grid_size bot.zoom_level).get ⟨j, by omega⟩)
          bot.boundary_coords = true →
        pointFail (env j) = none) →
      (scan_city bot grid_size env).err = some e) := by
  have hsc := scan_city_eq bot grid_size n env hbd hsz
  constructor
  · intro henv
    have hloop := scanLoop_ok bot.boundary_coords bot.zoom_level env
      (totalPointsOf bot.boundary_coords grid_size bot.zoom_level) henv
      (candidatesOf bot.boundary_coords grid_size bot.zoom_level) 0 0
    refine ⟨?_, ?_, ?_⟩
    · rw [hsc, hloop]
    · rw [hsc, hloop]
    · rw [hsc, hloop]
      simp
  · intro k e hk hin hfail hbefore
    have hfail0 : pointFail (env (0 + k)) = some e := by simpa using hfail
    have hbefore0 : ∀ j, ∀ hj : j < k,
        point_in_polygon
          ((candidatesOf bot.boundary_coords grid_size bot.zoom_level).get ⟨j, by omega⟩)
          bot.boundary_coords = true →
        pointFail (env (0 + j)) = none := by
      intro j hj hbj
      simpa using hbefore j hj hbj
    have := scanLoop_fail bot.boundary_coords bot.zoom_level env
      (totalPointsOf bot.boundary_coords grid_size bot.zoom_level)
      (candidatesOf bot.boundary_coords grid_size bot.zoom_level) 0 0 k e hk hin hfail0
      hbefore0
    rw [hsc]
    exact this

/-- The candidate count is the square of a valid effective grid size. -/
theorem candidatesOf_length (bd : List (ℚ × ℚ)) (g : ℕ) (z : ℤ) (n : ℕ)
    (hsz : actualGridSize g z = some n) : (candidatesOf bd g z).length = n * n := by
  have hc := length_cross (latStepsOf bd g z) (lonStepsOf bd g z) (fun u v => (u, v))
  unfold candidatesOf
  refine hc.trans ?_
  unfold latStepsOf lonStepsOf
  rw [hsz, linspace_length, linspace_length]

/-- Witness for claim C5: a run of the square boundary whose single
in-boundary candidate (index 3) suffers a capture failure; the run ends
with exactly that error.  The hypotheses are discharged concretely. -/
theorem claim_C5_witness :
    (scan_city (initBot "Surabaya" [(0,0),(0,2),(2,2),(2,0),(0,0)] 18) 2
      fun j => if j = 3 then ⟨none, true, some (ScanError.ext 7), none⟩ else okEnv).err =
      some (ScanError.ext 7) := by
  have h := claim_C5_timeout_recovered_failures_fatal
    (initBot "Surabaya" [(0,0),(0,2),(2,2),(2,0),(0,0)] 18) 2 2
    (fun j => if j = 3 then ⟨none, true, some (ScanError.ext 7), none⟩ else okEnv)
    (by decide) (by decide)
  refine h.2 3 (ScanError.ext 7) ?_ ?_ ?_ ?_
  · rw [candidatesOf_length
      (initBot "Surabaya" [(0,0),(0,2),(2,2),(2,0),(0,0)] 18).boundary_coords 2
      (initBot "Surabaya" [(0,0),(0,2),(2,2),(2,0),(0,0)] 18).zoom_level 2 (by decide)]
    omega
  · norm_num [candidatesOf, latStepsOf, lonStepsOf, actualGridSize, initBot, linspace,
      latMinD, latMaxD, lonMinD, lonMaxD, listMinD, listMaxD, List.range_succ,
      point_in_polygon, pipRun, pipEdges, pipStep]
  · rfl
  · intro j hj hbj
    interval_cases j <;> rfl

/-- Claim C10: an out-of-range `zoom_level` constructor argument is stored
clamped into `[0, 21]`; the clamped value is the one interpolated into the
navigation URL, into every navigation and save event of a scan, and into
the capture filenames, while the screenshot directory name interpolates the
original unclamped argument — so the zoom in the directory name differs
from the zoom in the filenames it contains. -/
theorem claim_C10_zoom_clamp (city : String) (bd : List (ℚ × ℚ)) (z : ℤ)
    (grid_size : ℕ) (env : ℕ → PointEnv) (lat lon : ℚ) (ts : String)
    (hz : z < 0 ∨ 21 < z) :
    (0 ≤ (initBot city bd z).zoom_level ∧ (initBot city bd z).zoom_level ≤ 21) ∧
    (initBot city bd z).screenshot_path =
      "screenshots_" ++ city ++ "_zoom" ++ toString z ∧
    navigate_url (initBot city bd z) lat lon =
      "https://www.google.com/maps/@" ++ toString lat ++ "," ++ toString lon ++ ","
        ++ toString (initBot city bd z).zoom_level ++ "z" ∧
    screenshot_filename (initBot city bd z) lat lon ts =
      (initBot city bd z).screenshot_path ++ "/" ++ city ++ "_" ++ toString lat ++ "_"
        ++ toString lon ++ "_z" ++ toString (initBot city bd z).zoom_level ++ "_" ++ ts
        ++ ".png" ∧
    ((scan_city (initBot city bd z) grid_size env).trace.all
      (evZoomOk (initBot city bd z).zoom_level) = true) ∧
    (initBot city bd z).zoom_level ≠ z := by
  refine ⟨⟨?_, ?_⟩, rfl, rfl, rfl, ?_, ?_⟩
  · rw [initBot_zoom]
    omega
  · rw [initBot_zoom]
    omega
  · unfold scan_city
    rw [initBot_boundary]
    cases bd with
    | nil => rfl
    | cons p t =>
      cases hsz : actualGridSize grid_size (initBot city (p :: t) z).zoom_level with
      | none => rfl
      | some n =>
        simp only [List.all_append, scanLoop_zoomOk, Bool.true_and]
        rfl
  · rw [initBot_zoom]
    omega

/-- Witness for claim C10 at the out-of-range argument 25, which is stored
as 21. -/
theorem claim_C10_witness :
    (0 ≤ (initBot "Surabaya" [(0,0),(0,2),(2,2),(2,0),(0,0)] 25).zoom_level ∧
      (initBot "Surabaya" [(0,0),(0,2),(2,2),(2,0),(0,0)] 25).zoom_level ≤ 21) ∧
    (initBot "Surabaya" [(0,0),(0,2),(2,2),(2,0),(0,0)] 25).zoom_level ≠ 25 := by
  have h := claim_C10_zoom_clamp "Surabaya" [(0,0),(0,2),(2,2),(2,0),(0,0)] 25 2
    (fun _ => okEnv) 0 0 "20240101-000000" (Or.inr (by decide))
  exact ⟨h.1, h.2.2.2.2.2⟩
